import Mathlib

/-!
Verification of the Pricepally demand-forecasting pipeline.

This file gives a shallow embedding, in Lean 4, of the core of the
forecasting code base (weekly aggregation, feature engineering, the
per-product forecast selector with its recursive model loop, and the
pipeline orchestrator), and proves or refutes the testable properties
stated for it.

Modelling conventions:
* DataFrames become lists of structure values; a column that may be
  missing (NaN) becomes an `Option` field.
* Machine floats become exact rationals `ℚ`.  Transcendental NumPy
  functions (`log1p`, `expm1`, `sqrt`, `sin`, `cos`) are opaque numeric
  parameters collected in `NumFns`; no verified property depends on
  their values.
* `pd.Timestamp` becomes a civil `Date` triple together with its day
  ordinal (days since 1970-01-01, the proleptic Gregorian calendar that
  pandas uses).  Python's floor division `//` is `Int` division `/`
  (Euclidean, which agrees with floor division for positive divisors).
* The trained regression model is an opaque predictor
  `predict : Row → Option ℚ` returning its log-scale estimate, `none`
  modelling an exception raised while predicting.  The categorical
  encoding step (a pure, row-wise map feeding only the model) is folded
  into this opaque predictor.
-/

namespace Pricepally

attribute [local semireducible] Rat.add Rat.mul Rat.sub Rat.inv

/-! ## Generic list helpers -/

/-- Insert `x` into `l` keeping `le`-sorted order; equal keys keep the
existing element first, so the derived sort is stable. -/
def insSorted (le : α → α → Bool) (x : α) : List α → List α
  | [] => [x]
  | y :: l => if le y x then y :: insSorted le x l else x :: y :: l

/-- Stable insertion sort by the boolean comparison `le` (models
`DataFrame.sort_values`; ties keep their input order). -/
def sortBy (le : α → α → Bool) (l : List α) : List α :=
  l.foldl (fun acc x => insSorted le x acc) []

/-- First-occurrence deduplication (models `DataFrame.drop_duplicates`,
which keeps the first occurrence of each key, in input order). -/
def dedupFirst [DecidableEq α] (l : List α) : List α :=
  l.foldl (fun acc x => if x ∈ acc then acc else acc ++ [x]) []

/-- Maximum of a list of integers, `none` on the empty list (models
`Series.max()` over a datetime column). -/
def listMax : List ℤ → Option ℤ
  | [] => none
  | x :: l =>
    match listMax l with
    | none => some x
    | some m => some (max x m)

/-- Sum of a list of rationals (models `Series.sum()`). -/
def qsum (l : List ℚ) : ℚ := l.foldr (· + ·) 0

/-- Arithmetic mean (models `Series.mean()` of a non-empty series;
`ℚ` division by zero yields 0, but every use below guards emptiness
exactly as the source does). -/
def qmean (l : List ℚ) : ℚ := qsum l / (l.length : ℚ)

/-- Sample variance with one delta degree of freedom, the square of
`Series.std()` (pandas default `ddof=1`). -/
def sampleVar (l : List ℚ) : ℚ :=
  let m := qmean l
  qsum (l.map (fun x => (x - m) * (x - m))) / ((l.length : ℚ) - 1)

/-- Consecutive first differences (models `Series.diff()` with the
leading NaN already dropped). -/
def diffs : List ℚ → List ℚ
  | [] => []
  | [_] => []
  | x :: y :: l => (y - x) :: diffs (y :: l)

/-- Lexicographic comparison of integer lists, used for multi-column
group-key ordering (pandas `groupby(sort=True)` sorts keys this way). -/
def listLexLE : List ℤ → List ℤ → Bool
  | [], _ => true
  | _ :: _, [] => false
  | x :: xs, y :: ys => if x < y then true else if y < x then false else listLexLE xs ys

/-! ## Calendar (src/pricepally_forecasting/utils/date_utils.py)

Dates are civil (year, month, day) triples; `Date.ord` is the day
ordinal with epoch 1970-01-01 computed by the standard civil-calendar
conversion, and `Date.ofOrd` its inverse, so that `Timestamp`
subtraction and `Timedelta` addition become integer arithmetic. -/

/-- Leap year in the proleptic Gregorian calendar. -/
def isLeapYear (y : ℤ) : Bool := (y % 4 == 0 && y % 100 != 0) || y % 400 == 0

/-- Number of days in a month of the proleptic Gregorian calendar. -/
def daysInMonth (y m : ℤ) : ℤ :=
  if m = 2 then (if isLeapYear y then 29 else 28)
  else if m = 4 ∨ m = 6 ∨ m = 9 ∨ m = 11 then 30
  else 31

/-- Day ordinal (days since 1970-01-01) of a civil date, the classic
era-based conversion. -/
def daysFromCivil (y m d : ℤ) : ℤ :=
  let y1 := if m ≤ 2 then y - 1 else y
  let era := y1 / 400
  let yoe := y1 - era * 400
  let mp := (m + 9) % 12
  let doy := (153 * mp + 2) / 5 + d - 1
  let doe := yoe * 365 + yoe / 4 - yoe / 100 + doy
  era * 146097 + doe - 719468

/-- Civil date of a day ordinal, inverse of `daysFromCivil`. -/
def civilFromDays (z : ℤ) : ℤ × ℤ × ℤ :=
  let z1 := z + 719468
  let era := z1 / 146097
  let doe := z1 - era * 146097
  let yoe := (doe - doe / 1460 + doe / 36524 - doe / 146096) / 365
  let doy := doe - (365 * yoe + yoe / 4 - yoe / 100)
  let mp := (5 * doy + 2) / 153
  let d := doy - (153 * mp + 2) / 5 + 1
  let m := mp + (if mp < 10 then 3 else -9)
  (yoe + era * 400 + (if m ≤ 2 then 1 else 0), m, d)

/-- Model of a (midnight, timezone-naive) `pd.Timestamp`. -/
structure Date where
  year : ℤ
  month : ℤ
  day : ℤ
deriving DecidableEq, Repr, Inhabited

/-- Day ordinal of a date. -/
def Date.ord (d : Date) : ℤ := daysFromCivil d.year d.month d.day

/-- Date of a day ordinal. -/
def Date.ofOrd (z : ℤ) : Date :=
  let c := civilFromDays z
  ⟨c.1, c.2.1, c.2.2⟩

/-- Day of week of an ordinal, `0` = Sunday (1970-01-01 was a
Thursday, i.e. `4`). -/
def dayOfWeek (z : ℤ) : ℤ := (z + 4) % 7

/-- Smallest whole-day ordinal representable by a nanosecond
`pd.Timestamp` (the true minimum is within 1677-09-21, so that day
itself cannot be parsed at midnight; 1677-09-22 is the first full day). -/
def tsMinOrd : ℤ := daysFromCivil 1677 9 22

/-- Largest whole-day ordinal representable by a nanosecond
`pd.Timestamp` (within 2262-04-11). -/
def tsMaxOrd : ℤ := daysFromCivil 2262 4 11

/-- Whether `pd.to_datetime` accepts the civil triple: a well-formed
Gregorian date inside the nanosecond `Timestamp` range. -/
def isValidTimestampDate (y m d : ℤ) : Bool :=
  1 ≤ m && m ≤ 12 && 1 ≤ d && d ≤ daysInMonth y m
    && tsMinOrd ≤ daysFromCivil y m d && daysFromCivil y m d ≤ tsMaxOrd

/-- Mapping from business-week number to the start day of the week
(`WEEK_START_DAY` in date_utils.py); `none` for a week outside 1..4. -/
def WEEK_START_DAY (week : ℤ) : Option ℤ :=
  if week = 1 then some 1
  else if week = 2 then some 8
  else if week = 3 then some 15
  else if week = 4 then some 22
  else none

/-- Failure cases of the calendar mapping. -/
inductive DateError where
  | InvalidWeek
  | InvalidDate
deriving DecidableEq, Repr

/-- Body of `week_month_to_date` before its `except` clause: raises
(`Except.error`) on a week outside 1..4 (the explicit `raise
ValueError`) or on a (year, month, day) triple `pd.to_datetime`
rejects. -/
def week_month_to_date_checked (year month week : ℤ) : Except DateError Date :=
  match WEEK_START_DAY week with
  | none => .error .InvalidWeek
  | some day =>
    if isValidTimestampDate year month day then .ok ⟨year, month, day⟩
    else .error .InvalidDate

/-- The function `week_month_to_date` as shipped: its `try/except`
swallows every exception of the body and returns `pd.NaT` (modelled by
`none`) instead. -/
def week_month_to_date (year month week : ℤ) : Option Date :=
  (week_month_to_date_checked year month week).toOption

/-- The function `week_month_from_date` on one date:
`((day - 1) // 7 + 1).clip(upper=4)` (the source is vectorized over a
series of dates; it applies this formula element-wise). -/
def week_month_from_date (d : Date) : ℤ :=
  min ((d.day - 1) / 7 + 1) 4

/-- First ordinal on or after `z` that falls on a Sunday. -/
def sundayOnOrAfter (z : ℤ) : ℤ := z + (7 - dayOfWeek z) % 7

/-- Model of `pd.date_range(start, periods, freq="W-SUN")`: `periods`
consecutive Sundays starting at the first Sunday on or after `start`
(`start` itself when it is a Sunday). -/
def date_range_W_SUN (start : Date) (periods : ℕ) : List Date :=
  (List.range periods).map (fun i => Date.ofOrd (sundayOnOrAfter start.ord + 7 * i))


/-! ## Weekly aggregator (src/app/data/preprocessing.py)

Opaque string-valued columns (product name, unit of measure, sales
type) are modelled as integer identifiers; only equality and an
arbitrary total order on them matter to the verified code. -/

/-- One raw transaction row, the input of `build_weekly_timeseries`. -/
structure TxRow where
  year : ℤ
  month : ℤ
  week_month : ℤ
  product_name : ℤ
  product_uom : ℤ
  sales_type : ℤ
  total_qty_invoiced : ℚ
  total_qty_delivered : ℚ
deriving DecidableEq, Repr, Inhabited

/-- The six-column aggregation key of the weekly groupby. -/
structure WKey where
  year : ℤ
  month : ℤ
  week_month : ℤ
  product_name : ℤ
  product_uom : ℤ
  sales_type : ℤ
deriving DecidableEq, Repr, Inhabited

/-- Key of a transaction row. -/
def TxRow.key (r : TxRow) : WKey :=
  ⟨r.year, r.month, r.week_month, r.product_name, r.product_uom, r.sales_type⟩

/-- Column order used by the groupby, for lexicographic key sorting. -/
def WKey.toList (k : WKey) : List ℤ :=
  [k.year, k.month, k.week_month, k.product_name, k.product_uom, k.sales_type]

/-- Lexicographic order on group keys (pandas `groupby` emits its
groups sorted by key). -/
def wkeyLE (a b : WKey) : Bool := listLexLE a.toList b.toList

/-- One output row of the weekly aggregation. -/
structure WeeklyRow where
  year : ℤ
  month : ℤ
  week_month : ℤ
  product_name : ℤ
  product_uom : ℤ
  sales_type : ℤ
  qty_for_forecast : ℚ
deriving DecidableEq, Repr, Inhabited

/-- Key of a weekly row. -/
def WeeklyRow.key (r : WeeklyRow) : WKey :=
  ⟨r.year, r.month, r.week_month, r.product_name, r.product_uom, r.sales_type⟩

/-- The function `build_weekly_timeseries`:
(a) when `filter_attribute_products` is set, drop rows whose product
name is attribute-only (`isAttributeOnly` models membership of the
lower-cased name in `ATTRIBUTE_ONLY_PRODUCTS`);
(b) add the column `qty_for_forecast = max(total_qty_invoiced,
total_qty_delivered)` per row;
(c) group by (year, month, week_month, product_name, product_uom,
sales_type) and sum that column, one output row per key. -/
def build_weekly_timeseries (isAttributeOnly : ℤ → Bool)
    (filter_attribute_products : Bool) (df : List TxRow) : List WeeklyRow :=
  let df1 := if filter_attribute_products
    then df.filter (fun r => !(isAttributeOnly r.product_name)) else df
  let rowQty : TxRow → ℚ := fun r => max r.total_qty_invoiced r.total_qty_delivered
  let keys := sortBy wkeyLE (dedupFirst (df1.map TxRow.key))
  keys.map (fun k =>
    { year := k.year, month := k.month, week_month := k.week_month,
      product_name := k.product_name, product_uom := k.product_uom,
      sales_type := k.sales_type,
      qty_for_forecast := qsum ((df1.filter (fun r => decide (r.key = k))).map rowQty) })

/-! ## Feature builder (src/app/features/xgboost_features.py) -/

/-- Opaque numeric primitives of NumPy used by the pipeline.  All
verified properties hold for every interpretation of these fields. -/
structure NumFns where
  log1p : ℚ → ℚ
  expm1 : ℚ → ℚ
  qsqrt : ℚ → ℚ
  msin : ℤ → ℚ
  mcos : ℤ → ℚ

/-- An interpretation used to instantiate closed witnesses. -/
def idNumFns : NumFns := ⟨id, id, id, fun m => (m : ℚ), fun m => (m : ℚ)⟩

/-- One row of the weekly table as the pipeline sees it after the
`date` column is added; feature columns are `none` until
`create_xgboost_features` fills them (NaN before that). -/
structure Row where
  year : ℤ
  month : ℤ
  week_month : ℤ
  product_name : ℤ
  product_uom : ℤ
  sales_type : ℤ
  date : Date
  qty_for_forecast : ℚ
  y : Option ℚ
  lag_1 : Option ℚ
  lag_4 : Option ℚ
  lag_8 : Option ℚ
  roll_mean_4 : Option ℚ
  roll_mean_8 : Option ℚ
  roll_std_4 : Option ℚ
  month_sin : Option ℚ
  month_cos : Option ℚ
deriving DecidableEq, Repr, Inhabited

/-- Row order of `ts.sort_values(["product_name", "product_uom",
"date"])` — note the sales channel is not part of the sort key. -/
def featureSortLE (a b : Row) : Bool :=
  listLexLE [a.product_name, a.product_uom, a.date.ord]
    [b.product_name, b.product_uom, b.date.ord]

/-- Grouping of the lag/rolling computations: the triple
(product_name, product_uom, sales_type). -/
def sameGroup (a b : Row) : Prop :=
  a.product_name = b.product_name ∧ a.product_uom = b.product_uom ∧
    a.sales_type = b.sales_type

instance : DecidablePred fun p : Row × Row => sameGroup p.1 p.2 := by
  intro p
  unfold sameGroup
  infer_instance

instance (a b : Row) : Decidable (sameGroup a b) := by
  unfold sameGroup
  infer_instance

/-- The `y` column after the conditional assignment: the existing `y`
value when the column is present, else `log1p(qty_for_forecast)`. -/
def yVal (F : NumFns) (r : Row) : ℚ :=
  match r.y with
  | some v => v
  | none => F.log1p r.qty_for_forecast

/-- Indices before `i` (in sorted row order) that belong to the same
group as row `i`, most recent first.  `groupby(...).shift(k)` reads the
`k`-th entry of this list. -/
def priorGroupIdx (rows : List Row) (i : ℕ) : List ℕ :=
  ((List.range i).filter
    (fun j => decide (sameGroup (rows.getD j default) (rows.getD i default)))).reverse

/-- Value of `groupby(group_cols)["y"].shift(k)` at position `i`. -/
def lagAt (F : NumFns) (rows : List Row) (k : ℕ) (i : ℕ) : Option ℚ :=
  ((priorGroupIdx rows i).get? (k - 1)).map (fun j => yVal F (rows.getD j default))

/-- The whole shifted column `groupby(group_cols)["y"].shift(1)` in row
order; this is a plain (ungrouped) series again. -/
def shiftedY (F : NumFns) (rows : List Row) : List (Option ℚ) :=
  (List.range rows.length).map (lagAt F rows 1)

/-- Value at position `i` of `.rolling(w).mean()` applied to the plain
series `s`: the mean of the `w` positions ending at `i`, `none` unless
the window is full and NaN-free (pandas default `min_periods = w`).
The rolling window runs over positions of the whole frame, not within
groups — only the shift before it was grouped. -/
def rollingMeanAt (s : List (Option ℚ)) (w : ℕ) (i : ℕ) : Option ℚ :=
  if w ≤ i + 1 then
    let window := (s.drop (i + 1 - w)).take w
    if window.all Option.isSome then some (qsum (window.filterMap id) / (w : ℚ))
    else none
  else none

/-- Value at position `i` of `.rolling(w).std()` applied to `s`
(sample standard deviation, `ddof = 1`); the square root is the opaque
`NumFns.qsqrt`. -/
def rollingStdAt (F : NumFns) (s : List (Option ℚ)) (w : ℕ) (i : ℕ) : Option ℚ :=
  if w ≤ i + 1 then
    let window := (s.drop (i + 1 - w)).take w
    if window.all Option.isSome then some (F.qsqrt (sampleVar (window.filterMap id)))
    else none
  else none

/-- The function `create_xgboost_features`: sort by (product_name,
product_uom, date); fill `y` (from `log1p` of the quantity when the
column is absent); per-group lags of `y` by 1, 4 and 8; rolling mean
over windows of 4 and 8 and rolling std over 4 of the group-shifted
`y` column; cyclical month features (`sin`/`cos` of `2π·month/12`,
opaque here). -/
def create_xgboost_features (F : NumFns) (ts : List Row) : List Row :=
  let sorted := sortBy featureSortLE ts
  let s := shiftedY F sorted
  (List.range sorted.length).map (fun i =>
    let r := sorted.getD i default
    { r with
      y := some (yVal F r)
      lag_1 := lagAt F sorted 1 i
      lag_4 := lagAt F sorted 4 i
      lag_8 := lagAt F sorted 8 i
      roll_mean_4 := rollingMeanAt s 4 i
      roll_mean_8 := rollingMeanAt s 8 i
      roll_std_4 := rollingStdAt F s 4 i
      month_sin := some (F.msin r.month)
      month_cos := some (F.mcos r.month) })

/-! ## Configuration (src/pricepally_forecasting/config.py) -/

/-- Number of weeks to forecast ahead. -/
def FORECAST_HORIZON : ℕ := 2

/-- Minimum fully-lagged rows required to use the model. -/
def MIN_XGBOOST_ROWS : ℕ := 10

/-- Weeks without sales before a product counts as inactive. -/
def INACTIVE_GAP_WEEKS : ℤ := 4

/-! ## Heuristic forecasters (src/app/models/heuristics.py) -/

/-- The function `rolling_mean_forecast`: mean of the last `window`
observations (overall mean when the series is shorter than the
window); a NaN mean (empty series) or a negative mean clamps to 0; the
value is repeated `horizon` times. -/
def rolling_mean_forecast (series : List ℚ) (horizon : ℕ) (window : ℕ) : List ℚ :=
  let fv : Option ℚ :=
    if series.length < window then
      (if series.isEmpty then none else some (qmean series))
    else some (qmean (series.drop (series.length - window)))
  let v : ℚ :=
    match fv with
    | none => 0
    | some x => if x < 0 then 0 else x
  List.replicate horizon v

/-- The function `naive_forecast`: repeat `max(0, last observation)`,
all zeros on an empty series. -/
def naive_forecast (series : List ℚ) (horizon : ℕ) : List ℚ :=
  match series.getLast? with
  | none => List.replicate horizon 0
  | some last => List.replicate horizon (max 0 last)

/-! ## Recursive model forecast (src/app/models/xgboost_model.py) -/

/-- Loop body state of `xgboost_recursive_forecast`: one iteration
recomputes features over the accumulated frame, takes the last row and
asks the opaque model for a log-scale prediction.  `none` is a raised
exception (the model failing, or the frame being empty so that
`iloc[-1:]` yields nothing to predict on); on success it returns the
raw log prediction together with the frame extended by the synthetic
next-week row. -/
def xgbStep (F : NumFns) (predict : Row → Option ℚ) (df : List Row) :
    Option (ℚ × List Row) :=
  let df1 := create_xgboost_features F df
  match df1.getLast? with
  | none => none
  | some last_row =>
    match predict last_row with
    | none => none
    | some pred_log =>
      let pred := max (F.expm1 pred_log) 0
      let next_row := { last_row with
        date := Date.ofOrd (last_row.date.ord + 7),
        qty_for_forecast := pred,
        y := some pred_log }
      some (pred_log, df1 ++ [next_row])

/-- Iteration of `xgbStep` over the remaining horizon; on the first
failing step the remaining entries are filled with zeros and the loop
breaks. -/
def xgbRecAux (F : NumFns) (predict : Row → Option ℚ) : List Row → ℕ → List ℚ
  | _, 0 => []
  | df, n + 1 =>
    match xgbStep F predict df with
    | none => List.replicate (n + 1) 0
    | some (pred_log, df2) => max (F.expm1 pred_log) 0 :: xgbRecAux F predict df2 n

/-- The function `xgboost_recursive_forecast`: set the log target
column `y = log1p(qty_for_forecast)` on a copy of the product frame,
then run the per-step loop for `horizon` steps. -/
def xgboost_recursive_forecast (F : NumFns) (predict : Row → Option ℚ)
    (product_df : List Row) (horizon : ℕ) : List ℚ :=
  let df := product_df.map (fun r => { r with y := some (F.log1p r.qty_for_forecast) })
  xgbRecAux F predict df horizon

/-- Instrumentation of the loop: the 1-based index of the step at
which the recursive forecast failed, `none` when every step succeeded. -/
def xgbRecFailStep (F : NumFns) (predict : Row → Option ℚ) : List Row → ℕ → Option ℕ
  | _, 0 => none
  | df, n + 1 =>
    match xgbStep F predict df with
    | none => some 1
    | some (_, df2) => (xgbRecFailStep F predict df2 n).map (· + 1)

/-- Instrumentation of the loop: the predictions of the completed
steps only (no zero filling). -/
def xgbRecPreds (F : NumFns) (predict : Row → Option ℚ) : List Row → ℕ → List ℚ
  | _, 0 => []
  | df, n + 1 =>
    match xgbStep F predict df with
    | none => []
    | some (pred_log, df2) => max (F.expm1 pred_log) 0 :: xgbRecPreds F predict df2 n

/-! ## Per-product forecast selector
(src/pricepally_forecasting/pipeline/forecast_pipeline.py,
`forecast_single_product`) -/

/-- Forecast method tags. -/
inductive Method where
  | ZERO_INACTIVE
  | XGBOOST_RECURSIVE
  | HEURISTIC_ROLLING_MEAN
  | HEURISTIC_NAIVE
  | HEURISTIC_ZERO
deriving DecidableEq, Repr

/-- One output row of `forecast_single_product`.  The `sales_type`
field is the filter argument when one was given (`None` becomes the
placeholder string "ALL" in the source). -/
structure ForecastRow where
  date : Date
  forecast_qty : ℚ
  year : ℤ
  month : ℤ
  week_month : ℤ
  product_name : ℤ
  product_uom : ℤ
  sales_type : Option ℤ
  forecast_method : Method
deriving DecidableEq, Repr

/-- The group slice taken at the top of `forecast_single_product`:
rows matching the product name and unit, optionally the sales type,
sorted by date. -/
def productSlice (ts : List Row) (product_name product_uom : ℤ)
    (sales_type : Option ℤ) : List Row :=
  let pdf0 := ts.filter (fun r =>
    decide (r.product_name = product_name ∧ r.product_uom = product_uom))
  let pdf1 := match sales_type with
    | some st => pdf0.filter (fun r => decide (r.sales_type = st))
    | none => pdf0
  sortBy (fun a b => decide (a.date.ord ≤ b.date.ord)) pdf1

/-- Latest date carrying a positive `qty_for_forecast`
(`product_df[series > 0]["date"].max()`), as an ordinal. -/
def last_nonzero_ord (product_df : List Row) : Option ℤ :=
  listMax ((product_df.filter (fun r => decide (0 < r.qty_for_forecast))).map
    (fun r => r.date.ord))

/-- The inactivity test: `gap_weeks = (today - last_nonzero_date).days
// 7` (infinite when no positive-quantity date exists, which always
passes the test) compared against `INACTIVE_GAP_WEEKS`. -/
def gapIsInactive (today : Date) (product_df : List Row) : Bool :=
  match last_nonzero_ord product_df with
  | none => true
  | some d => decide (INACTIVE_GAP_WEEKS ≤ (today.ord - d) / 7)

/-- Count of rows usable by the model:
`len(product_df.dropna(subset=["lag_1", "lag_4", "lag_8"]))`. -/
def fullyLaggedCount (product_df : List Row) : ℕ :=
  (product_df.filter (fun r =>
    r.lag_1.isSome && r.lag_4.isSome && r.lag_8.isSome)).length

/-- The adaptive heuristic branch of `forecast_single_product` (its
final `else`): all zeros for an empty or zero-sum series; naive for a
single observation; otherwise naive for a stable series and rolling
mean for a volatile or trending one.  The stability test of the source
is `cv < 0.3 and abs(trend) < 0.1 * mean` with `cv = std / mean`
(infinite when `mean <= 0`); since the sample standard deviation is
the non-negative square root of `sampleVar`, for `mean > 0` the test
`cv < 3/10` is equivalent to `sampleVar < (3/10 * mean)^2`, which is
how it is phrased here (exactly, not approximately — see
`cv_lt_iff_var_lt`). -/
def adaptive_heuristic (series : List ℚ) : Method × List ℚ :=
  if series.length = 0 ∨ qsum series = 0 then
    (.HEURISTIC_ZERO, List.replicate FORECAST_HORIZON 0)
  else if series.length = 1 then
    (.HEURISTIC_NAIVE, naive_forecast series FORECAST_HORIZON)
  else
    let mean_val := qmean series
    let trend := qmean (diffs series)
    if 0 < mean_val ∧ sampleVar series < (3/10 * mean_val) * (3/10 * mean_val) ∧
        |trend| < mean_val * (1/10) then
      (.HEURISTIC_NAIVE, naive_forecast series FORECAST_HORIZON)
    else
      (.HEURISTIC_ROLLING_MEAN, rolling_mean_forecast series FORECAST_HORIZON 4)

/-- The method selection of `forecast_single_product` on a non-empty
group slice: inactivity first, then the model path when enough fully
lagged rows exist, else the adaptive heuristic.  The source wraps the
model path in `try/except` falling back to the rolling-mean heuristic;
that handler is unreachable in this model because
`xgboost_recursive_forecast` already catches every per-step failure
internally and returns normally. -/
def fspMethodValues (F : NumFns) (predict : Row → Option ℚ) (today : Date)
    (product_df : List Row) : Method × List ℚ :=
  if gapIsInactive today product_df then
    (.ZERO_INACTIVE, List.replicate FORECAST_HORIZON 0)
  else if MIN_XGBOOST_ROWS ≤ fullyLaggedCount product_df then
    (.XGBOOST_RECURSIVE, xgboost_recursive_forecast F predict product_df FORECAST_HORIZON)
  else
    adaptive_heuristic (product_df.map (fun r => r.qty_for_forecast))

/-- The function `forecast_single_product`.  `today` models
`pd.Timestamp.now().normalize()`.  Output dates come from
`pd.date_range(start=today, periods=FORECAST_HORIZON, freq="W-SUN")`,
and each row carries that date's year and month plus
`week_month_from_date` of it. -/
def forecast_single_product (F : NumFns) (predict : Row → Option ℚ) (today : Date)
    (ts : List Row) (product_name product_uom : ℤ) (sales_type : Option ℤ) :
    List ForecastRow :=
  let product_df := productSlice ts product_name product_uom sales_type
  if product_df.isEmpty then []
  else
    let mv := fspMethodValues F predict today product_df
    let future_dates := date_range_W_SUN today FORECAST_HORIZON
    List.zipWith (fun d v =>
      { date := d, forecast_qty := v, year := d.year, month := d.month,
        week_month := week_month_from_date d, product_name := product_name,
        product_uom := product_uom, sales_type := sales_type,
        forecast_method := mv.1 }) future_dates mv.2

/-! ## Pipeline orchestrator
(src/pricepally_forecasting/pipeline/forecast_pipeline.py,
`run_pipeline`; training from src/app/models/xgboost_model.py) -/

/-- Rows kept by `train_xgboost_model`'s
`dropna(subset=FEATURES + ["y"])`: after `create_xgboost_features` the
month features, the categorical encodings (`fillna(-1)`) and the `y`
column are never null, so exactly the lag and rolling columns decide
survival. -/
def trainUsableRows (rows : List Row) : List Row :=
  rows.filter (fun r =>
    r.lag_1.isSome && r.lag_4.isSome && r.lag_8.isSome &&
      r.roll_mean_4.isSome && r.roll_mean_8.isSome && r.roll_std_4.isSome)

/-- The function `train_xgboost_model`, up to the opaque regressor:
encode categoricals (pure, folded into the opaque predictor), build
`y`, drop incomplete rows, and raise `ValueError` when nothing
remains; the fitted model itself is outside this model. -/
def train_xgboost_model (rows : List Row) : Except String Unit :=
  if (trainUsableRows rows).isEmpty then
    .error "Insufficient training data after NaN removal"
  else .ok ()

/-- An entry of the orchestrator's `failed_products` list. -/
structure FailedGroup where
  product_name : ℤ
  product_uom : ℤ
  sales_type : ℤ
  reason : String
deriving DecidableEq, Repr

/-- The per-product loop of `run_pipeline`.  `fspCall` is the call to
`forecast_single_product` for one (product_name, product_uom,
sales_type) key; `Except.error` models the call raising.  A raising
call is recorded with reason `"Error: ..."`; an empty returned frame
with reason `"Empty forecast returned"`; a non-empty frame is
collected.  The loop itself never propagates a failure. -/
def forecast_loop (fspCall : ℤ × ℤ × ℤ → Except String (List ForecastRow)) :
    List (ℤ × ℤ × ℤ) → List (List ForecastRow) × List FailedGroup
  | [] => ([], [])
  | k :: rest =>
    let tail := forecast_loop fspCall rest
    match fspCall k with
    | .error e =>
      (tail.1, ⟨k.1, k.2.1, k.2.2, "Error: " ++ e⟩ :: tail.2)
    | .ok fdf =>
      if fdf.isEmpty then
        (tail.1, ⟨k.1, k.2.1, k.2.2, "Empty forecast returned"⟩ :: tail.2)
      else (fdf :: tail.1, tail.2)

/-- Distinct (product_name, product_uom, sales_type) triples in first
occurrence order (`drop_duplicates`). -/
def distinctProducts (rows : List Row) : List (ℤ × ℤ × ℤ) :=
  dedupFirst (rows.map (fun r => (r.product_name, r.product_uom, r.sales_type)))

/-- The function `run_pipeline`: build features over the whole table,
train the global model (a training failure is re-raised and aborts the
run), then run the per-product loop over the distinct product triples
of the featured table and concatenate the successful frames; when no
group succeeded the empty table is returned (with the failed groups
reported separately).  `fspRaw` is the per-group forecasting call,
given the featured table and the group key; the pure instantiation is
`fspOfPredict`. -/
def run_pipeline (F : NumFns)
    (fspRaw : List Row → ℤ × ℤ × ℤ → Except String (List ForecastRow))
    (ts : List Row) : Except String (List ForecastRow × List FailedGroup) :=
  let tsF := create_xgboost_features F ts
  match train_xgboost_model tsF with
  | .error e => .error e
  | .ok _ =>
    let products := distinctProducts tsF
    let r := forecast_loop (fspRaw tsF) products
    if r.1.isEmpty then .ok ([], r.2)
    else .ok (r.1.flatten, r.2)

/-- The non-raising instantiation of the per-group call: the pure
`forecast_single_product` embedding never raises. -/
def fspOfPredict (F : NumFns) (predict : Row → Option ℚ) (today : Date)
    (tsF : List Row) (k : ℤ × ℤ × ℤ) : Except String (List ForecastRow) :=
  .ok (forecast_single_product F predict today tsF k.1 k.2.1 (some k.2.2))

/-! ## Object-level mutation model

The frame-effect claims are about which pandas objects each stage
mutates in place.  A tiny imperative language over an object heap
captures exactly this: frames live in a heap (a list of values of an
abstract frame type `α`), `newFrom` models every pandas call returning
a fresh frame (boolean-mask indexing, `.copy()`, `sort_values`,
`groupby().sum()`, `concat`, ...), `inplace` models in-place column
assignment (`df[col] = ...`, `df.loc[:, col] = ...`), and `branch`
models reading a frame to decide control flow.  The column arithmetic
itself is irrelevant to the claim and stays abstract. -/

/-- Programs over an object heap of frames; object identities are heap
indices. -/
inductive Prog (α : Type) where
  | ret : ℕ → Prog α
  | newFrom : ℕ → (α → α) → (ℕ → Prog α) → Prog α
  | inplace : ℕ → (α → α) → Prog α → Prog α
  | branch : ℕ → (α → Bool) → (Bool → Prog α) → Prog α

/-- Sequencing of heap programs. -/
def Prog.bind : Prog α → (ℕ → Prog α) → Prog α
  | .ret i, k => k i
  | .newFrom s f k1, k => .newFrom s f (fun i => (k1 i).bind k)
  | .inplace t f p, k => .inplace t f (p.bind k)
  | .branch s c k1, k => .branch s c (fun b => (k1 b).bind k)

/-- Execution: `newFrom` appends a fresh object built from a source
object, `inplace` overwrites an existing object, `branch` only reads.
Returns the final heap and the returned object's index. -/
def Prog.exec [Inhabited α] : Prog α → List α → List α × ℕ
  | .ret i, h => (h, i)
  | .newFrom s f k, h => (k h.length).exec (h ++ [f (h.getD s default)])
  | .inplace t f p, h => p.exec (h.set t (f (h.getD t default)))
  | .branch s c k, h => (k (c (h.getD s default))).exec h

/-- A program is frame-safe beyond `n` when every in-place write hits
an object allocated by the program itself (index at least `n`, the
heap size when it starts). -/
inductive FrameSafe {α : Type} : ℕ → Prog α → Prop where
  | ret {n : ℕ} {i : ℕ} : FrameSafe n (Prog.ret (α := α) i)
  | newFrom {n s : ℕ} {f : α → α} {k : ℕ → Prog α} :
      (∀ m, n ≤ m → FrameSafe n (k m)) → FrameSafe n (Prog.newFrom s f k)
  | inplace {n t : ℕ} {f : α → α} {p : Prog α} :
      n ≤ t → FrameSafe n p → FrameSafe n (Prog.inplace t f p)
  | branch {n s : ℕ} {c : α → Bool} {k : Bool → Prog α} :
      (∀ b, FrameSafe n (k b)) → FrameSafe n (Prog.branch s c k)

/-- `build_weekly_timeseries` as a heap program on a frame already
holding the caller's raw table: boolean-mask filtering returns a new
frame, `.copy()` returns a new frame, the `qty_for_forecast`
assignment mutates that copy in place, and the groupby-sum returns the
fresh output frame. -/
def buildWeeklyProg (maskFilter copyFn setQtyCol groupSum : α → α)
    (df : ℕ) : Prog α :=
  .newFrom df maskFilter (fun df1 =>
    .newFrom df1 copyFn (fun df2 =>
      .inplace df2 setQtyCol (
        .newFrom df2 groupSum (fun ts => .ret ts))))

/-- Helper: a run of in-place column assignments on one object. -/
def inplaceSeq (t : ℕ) : List (α → α) → Prog α → Prog α
  | [], p => p
  | f :: fs, p => .inplace t f (inplaceSeq t fs p)

/-- `create_xgboost_features` as a heap program:
`ts.sort_values(...).copy()` allocates twice, then every feature
column assignment (`y`, three lags, three rolling statistics, two
month features — the list `colOps`) mutates that private copy. -/
def createFeaturesProg (sortFn copyFn : α → α) (colOps : List (α → α))
    (ts : ℕ) : Prog α :=
  .newFrom ts sortFn (fun t1 =>
    .newFrom t1 copyFn (fun t2 =>
      inplaceSeq t2 colOps (.ret t2)))

/-- `encode_categorical_features` as a heap program: `df.copy()` then
the encoded-column assignments on the copy. -/
def encodeProg (copyFn : α → α) (encOps : List (α → α)) (df : ℕ) : Prog α :=
  .newFrom df copyFn (fun d1 => inplaceSeq d1 encOps (.ret d1))

/-- The per-step loop of `xgboost_recursive_forecast` as a heap
program: each step runs the feature-builder call (its own program,
inlined), the encoding call (inlined), a read of the last row whose
outcome models prediction success, and on success a `pd.concat`
building the next frame; on failure the loop stops. -/
def recForecastLoop (sortFn featCopyFn : α → α) (colOps : List (α → α))
    (encCopyFn : α → α) (encOps : List (α → α))
    (predictOk : α → Bool) (concatNext : α → α) (df : ℕ) : ℕ → Prog α
  | 0 => .ret df
  | n + 1 =>
    (createFeaturesProg sortFn featCopyFn colOps df).bind (fun d1 =>
      (encodeProg encCopyFn encOps d1).bind (fun d2 =>
        .branch d2 predictOk (fun ok =>
          if ok then
            .newFrom d2 concatNext (fun d3 =>
              recForecastLoop sortFn featCopyFn colOps encCopyFn encOps
                predictOk concatNext d3 n)
          else .ret d2)))

/-- `xgboost_recursive_forecast` as a heap program:
`product_df.copy()`, the `y` assignment on that copy, then the
per-step loop over the horizon. -/
def recForecastProg (copyFn setYCol sortFn featCopyFn : α → α)
    (colOps : List (α → α)) (encCopyFn : α → α) (encOps : List (α → α))
    (predictOk : α → Bool) (concatNext : α → α)
    (product_df : ℕ) (horizon : ℕ) : Prog α :=
  .newFrom product_df copyFn (fun df =>
    .inplace df setYCol
      (recForecastLoop sortFn featCopyFn colOps encCopyFn encOps
        predictOk concatNext df horizon))

/-- The 1-based step at which `xgboost_recursive_forecast` failed
(`none` when no step failed), on the same initial frame the function
itself builds. -/
def xgboost_recursive_failstep (F : NumFns) (predict : Row → Option ℚ)
    (product_df : List Row) (horizon : ℕ) : Option ℕ :=
  xgbRecFailStep F predict
    (product_df.map (fun r => { r with y := some (F.log1p r.qty_for_forecast) })) horizon

/-- The predictions completed by `xgboost_recursive_forecast` before
its first failing step (the whole output when no step failed). -/
def xgboost_recursive_preds (F : NumFns) (predict : Row → Option ℚ)
    (product_df : List Row) (horizon : ℕ) : List ℚ :=
  xgbRecPreds F predict
    (product_df.map (fun r => { r with y := some (F.log1p r.qty_for_forecast) })) horizon

/-! ## Concrete rows used by closed witness and counterexample
statements -/

/-- Weekly-table row constructor for concrete inputs: key columns, a
date, a quantity and an explicit `y`, feature columns still null. -/
def mkWRow (pn pu st : ℤ) (dt : Date) (q : ℚ) (yv : ℚ) : Row :=
  { year := dt.year, month := dt.month, week_month := 1, product_name := pn,
    product_uom := pu, sales_type := st, date := dt, qty_for_forecast := q,
    y := some yv, lag_1 := none, lag_4 := none, lag_8 := none,
    roll_mean_4 := none, roll_mean_8 := none, roll_std_4 := none,
    month_sin := none, month_cos := none }

/-- Like `mkWRow` but with the lag and rolling columns already
populated (a slice of an already-featured table). -/
def mkLagRow (pn pu st : ℤ) (dt : Date) (q : ℚ) : Row :=
  { mkWRow pn pu st dt q q with
    lag_1 := some 1, lag_4 := some 1, lag_8 := some 1,
    roll_mean_4 := some 1, roll_mean_8 := some 1, roll_std_4 := some 0 }

/-- Two interleaved groups sharing product name and unit of measure
but with different sales channels: group A (sales_type 1) with `y`
values 1000, 2000, 3000 and group B (sales_type 2) with `y` values
1, 2, 3, strictly alternating in date order. -/
def c2Rows : List Row :=
  [mkWRow 1 1 1 ⟨2024, 1, 1⟩ 1 1000,
   mkWRow 1 1 2 ⟨2024, 1, 8⟩ 1 1,
   mkWRow 1 1 1 ⟨2024, 1, 15⟩ 1 2000,
   mkWRow 1 1 2 ⟨2024, 1, 22⟩ 1 2,
   mkWRow 1 1 1 ⟨2024, 1, 29⟩ 1 3000,
   mkWRow 1 1 2 ⟨2024, 2, 5⟩ 1 3]

/-- Equality of `Except` results over decidable components is
decidable (used to evaluate closed calendar and pipeline outcomes). -/
instance {ε α : Type} [DecidableEq ε] [DecidableEq α] : DecidableEq (Except ε α) :=
  fun a b =>
    match a, b with
    | .ok x, .ok y => decidable_of_iff (x = y) (by simp)
    | .ok _, .error _ => .isFalse (by simp)
    | .error _, .ok _ => .isFalse (by simp)
    | .error x, .error y => decidable_of_iff (x = y) (by simp)

/-- C7: the checked body of `week_month_to_date` does raise
`InvalidWeek` on week 5 and `InvalidDate` on month 13, but the
function catches every exception and returns a null date (`pd.NaT`),
so the caller receives a missing date instead of an error —
contradicting the claim that the error is surfaced. -/
theorem week_month_to_date_swallows_errors :
    week_month_to_date_checked 2024 1 5 = .error .InvalidWeek ∧
      week_month_to_date 2024 1 5 = none ∧
      week_month_to_date_checked 2024 13 2 = .error .InvalidDate ∧
      week_month_to_date 2024 13 2 = none := by
  decide

/-- One-row group used by the recursive-forecast failure witness. -/
def c3Df : List Row := [mkWRow 1 1 1 ⟨2024, 3, 4⟩ 1 1]

/-- A predictor that succeeds on rows dated up to 2024-03-04 and
raises afterwards, so the second recursive step — predicting from the
appended synthetic 2024-03-11 row — fails. -/
def c3Predict : Row → Option ℚ :=
  fun r => if r.date.ord ≤ daysFromCivil 2024 3 4 then some 5 else none

/-- Group used by the inactivity witness: one sale of 5 units on
2024-01-01. -/
def c4Ts : List Row := [mkWRow 1 1 1 ⟨2024, 1, 1⟩ 5 5]

/-- Group used by the adaptive-heuristic witness: five weeks of
constant demand 10. -/
def c5Ts : List Row :=
  [mkWRow 1 1 1 ⟨2024, 1, 1⟩ 10 10,
   mkWRow 1 1 1 ⟨2024, 1, 8⟩ 10 10,
   mkWRow 1 1 1 ⟨2024, 1, 15⟩ 10 10,
   mkWRow 1 1 1 ⟨2024, 1, 22⟩ 10 10,
   mkWRow 1 1 1 ⟨2024, 1, 29⟩ 10 10]

/-- Group used by the output-date theorems: one sale of 5 units on
2024-01-01. -/
def c8Ts : List Row := [mkWRow 1 1 1 ⟨2024, 1, 1⟩ 5 5]

/-- Group used by the orchestrator witness: nine consecutive weeks of
demand 1, enough for one fully-lagged training row after feature
building. -/
def c9Ts : List Row :=
  [mkWRow 1 1 1 ⟨2024, 1, 1⟩ 1 1,
   mkWRow 1 1 1 ⟨2024, 1, 8⟩ 1 1,
   mkWRow 1 1 1 ⟨2024, 1, 15⟩ 1 1,
   mkWRow 1 1 1 ⟨2024, 1, 22⟩ 1 1,
   mkWRow 1 1 1 ⟨2024, 1, 29⟩ 1 1,
   mkWRow 1 1 1 ⟨2024, 2, 5⟩ 1 1,
   mkWRow 1 1 1 ⟨2024, 2, 12⟩ 1 1,
   mkWRow 1 1 1 ⟨2024, 2, 19⟩ 1 1,
   mkWRow 1 1 1 ⟨2024, 2, 26⟩ 1 1]

/-! ## Theorems -/

/-- Sums of element-wise non-negative lists are non-negative. -/
theorem qsum_nonneg (l : List ℚ) (h : ∀ x ∈ l, 0 ≤ x) : 0 ≤ qsum l := by
  induction l with
  | nil => simp [qsum]
  | cons x xs ih =>
    have hx := h x (List.mem_cons_self x xs)
    have hxs := ih (fun z hz => h z (List.mem_cons_of_mem x hz))
    show 0 ≤ x + qsum xs
    exact add_nonneg hx hxs

/-- The sample variance is non-negative (rational division by a
non-positive count only occurs for series of length at most one, where
the numerator vanishes). -/
theorem sampleVar_nonneg (l : List ℚ) : 0 ≤ sampleVar l := by
  unfold sampleVar
  cases l with
  | nil => simp [qsum]
  | cons x xs =>
    apply div_nonneg
    · exact qsum_nonneg _ (by
        intro z hz
        obtain ⟨a, _, rfl⟩ := List.mem_map.1 hz
        exact mul_self_nonneg _)
    · have : (1 : ℚ) ≤ ((x :: xs).length : ℚ) := by
        exact_mod_cast Nat.succ_le_of_lt (Nat.pos_of_ne_zero (by simp))
      linarith

/-- C6: for every (year, month, week) triple on which the calendar
mapping produces a date — which requires week ∈ {1,2,3,4}, mapped to
day 1, 8, 15 or 22, and a valid resulting calendar date —
`week_month_from_date` recovers the week number:
`date_to_week(week_to_date(y, m, w)) = w`. -/
theorem week_month_roundtrip (y m w : ℤ) (d : Date)
    (h : week_month_to_date y m w = some d) : week_month_from_date d = w := by
  cases hw : WEEK_START_DAY w with
  | none =>
    have hnone : week_month_to_date y m w = none := by
      unfold week_month_to_date week_month_to_date_checked
      rw [hw]
      rfl
    rw [hnone] at h
    exact absurd h (by simp)
  | some day =>
    have hch : week_month_to_date y m w =
        (if isValidTimestampDate y m day then some (⟨y, m, day⟩ : Date) else none) := by
      unfold week_month_to_date week_month_to_date_checked
      rw [hw]
      by_cases hv : isValidTimestampDate y m day <;> simp [hv, Except.toOption]
    rw [hch] at h
    by_cases hv : isValidTimestampDate y m day
    · rw [if_pos hv] at h
      obtain rfl : (⟨y, m, day⟩ : Date) = d := Option.some.inj h
      unfold WEEK_START_DAY at hw
      split_ifs at hw with h1 h2 h3 h4
      · obtain rfl : (1 : ℤ) = day := Option.some.inj hw
        subst h1
        show min (((1 : ℤ) - 1) / 7 + 1) 4 = 1
        decide
      · obtain rfl : (8 : ℤ) = day := Option.some.inj hw
        subst h2
        show min (((8 : ℤ) - 1) / 7 + 1) 4 = 2
        decide
      · obtain rfl : (15 : ℤ) = day := Option.some.inj hw
        subst h3
        show min (((15 : ℤ) - 1) / 7 + 1) 4 = 3
        decide
      · obtain rfl : (22 : ℤ) = day := Option.some.inj hw
        subst h4
        show min (((22 : ℤ) - 1) / 7 + 1) 4 = 4
        decide
    · rw [if_neg hv] at h
      exact absurd h (by simp)

/-- Witness for `week_month_roundtrip`: week 2 of March 2024 maps to
2024-03-08, and back to week 2. -/
theorem week_month_roundtrip_witness :
    week_month_to_date 2024 3 2 = some ⟨2024, 3, 8⟩ ∧
      week_month_from_date ⟨2024, 3, 8⟩ = 2 :=
  ⟨by decide, week_month_roundtrip 2024 3 2 ⟨2024, 3, 8⟩ (by decide)⟩

/-- C1 (amended): the weekly aggregator computes, for every key it
emits, the sum over all contributing rows of the per-row maximum of
invoiced and delivered quantity — the column `qty_for_forecast =
max(invoiced, delivered)` is built per row first and the group-by then
sums it.  (The claimed `max(Σ invoiced, Σ delivered)` is refuted by
`build_weekly_not_max_of_sums`.) -/
theorem build_weekly_sum_of_row_maxima (isAttributeOnly : ℤ → Bool)
    (filter_attribute_products : Bool) (df : List TxRow) (w : WeeklyRow)
    (hw : w ∈ build_weekly_timeseries isAttributeOnly filter_attribute_products df) :
    w.qty_for_forecast =
      qsum ((((if filter_attribute_products
          then df.filter (fun r => !(isAttributeOnly r.product_name)) else df)).filter
            (fun r => decide (r.key = w.key))).map
          (fun r => max r.total_qty_invoiced r.total_qty_delivered)) := by
  unfold build_weekly_timeseries at hw
  simp only [List.mem_map] at hw
  obtain ⟨k, hk, rfl⟩ := hw
  cases k
  rfl

/-- Witness for `build_weekly_sum_of_row_maxima` on a two-row input. -/
theorem build_weekly_sum_of_row_maxima_witness :
    (WeeklyRow.mk 2024 1 1 1 1 1 20) ∈
        build_weekly_timeseries (fun _ => false) true
          [⟨2024, 1, 1, 1, 1, 1, 10, 0⟩, ⟨2024, 1, 1, 1, 1, 1, 0, 10⟩] ∧
      (WeeklyRow.mk 2024 1 1 1 1 1 20).qty_for_forecast =
        qsum ((((if true
            then ([⟨2024, 1, 1, 1, 1, 1, 10, 0⟩, ⟨2024, 1, 1, 1, 1, 1, 0, 10⟩] :
                List TxRow).filter (fun _ => !false)
            else [⟨2024, 1, 1, 1, 1, 1, 10, 0⟩, ⟨2024, 1, 1, 1, 1, 1, 0, 10⟩])).filter
              (fun r => decide (r.key = (WeeklyRow.mk 2024 1 1 1 1 1 20).key))).map
            (fun r => max r.total_qty_invoiced r.total_qty_delivered)) :=
  ⟨by decide,
    build_weekly_sum_of_row_maxima (fun _ => false) true
      [⟨2024, 1, 1, 1, 1, 1, 10, 0⟩, ⟨2024, 1, 1, 1, 1, 1, 0, 10⟩]
      (WeeklyRow.mk 2024 1 1 1 1 1 20) (by decide)⟩

/-- Counterexample to C1 as stated: two rows of one key, one purely
invoiced (10, 0) and one purely delivered (0, 10).  The aggregator
outputs 20 — the sum of the per-row maxima — while the claimed
`max(Σ invoiced, Σ delivered)` is `max(10, 10) = 10`. -/
theorem build_weekly_not_max_of_sums :
    (build_weekly_timeseries (fun _ => false) true
        [⟨2024, 1, 1, 1, 1, 1, 10, 0⟩, ⟨2024, 1, 1, 1, 1, 1, 0, 10⟩]).map
        (fun w => w.qty_for_forecast) = [20] ∧
      max (qsum (([⟨2024, 1, 1, 1, 1, 1, 10, 0⟩, ⟨2024, 1, 1, 1, 1, 1, 0, 10⟩] :
            List TxRow).map (fun r => r.total_qty_invoiced)))
          (qsum (([⟨2024, 1, 1, 1, 1, 1, 10, 0⟩, ⟨2024, 1, 1, 1, 1, 1, 0, 10⟩] :
            List TxRow).map (fun r => r.total_qty_delivered))) = 10 ∧
      (20 : ℚ) ≠ 10 := by
  decide

/-- C2 fails on the code: `roll_mean_4` is computed by
`groupby(group_cols)["y"].shift(1).rolling(4).mean()`, but `shift`
already returns an ungrouped series, so the rolling window runs over
frame positions and crosses group boundaries whenever groups
interleave — which happens exactly when one (product_name,
product_uom) pair spans several sales channels, because the sort keys
omit `sales_type`.  On `c2Rows` the sixth row (group B, third
observation) receives `roll_mean_4 = (1000 + 1 + 2000 + 2)/4`, a mean
over two group-A values and two group-B values, even though only two
same-group prior rows exist (so the specified per-group window of 4 is
impossible and the value should be null); its `lag_1`, by contrast, is
the correct same-group previous value 2. -/
theorem create_features_rolling_mixes_groups :
    ((create_xgboost_features idNumFns c2Rows).getD 5 default).sales_type = 2 ∧
      ((create_xgboost_features idNumFns c2Rows).getD 5 default).roll_mean_4 =
        some ((1000 + 1 + 2000 + 2) / 4) ∧
      (priorGroupIdx (sortBy featureSortLE c2Rows) 5).length = 2 ∧
      ((create_xgboost_features idNumFns c2Rows).getD 5 default).lag_1 = some 2 := by
  decide

/-- Overwriting one heap cell leaves the others unchanged. -/
theorem getD_set_ne [Inhabited α] (l : List α) (t i : ℕ) (v : α) (h : i ≠ t) :
    (l.set t v).getD i default = l.getD i default := by
  simp only [List.getD_eq_getD_get?, List.get?_eq_getElem?]
  rw [List.getElem?_set_ne (Ne.symm h)]

/-- Sequencing preserves frame safety. -/
theorem frameSafe_bind {n : ℕ} {p : Prog α} {q : ℕ → Prog α}
    (hp : FrameSafe n p) (hq : ∀ m, FrameSafe n (q m)) : FrameSafe n (p.bind q) := by
  induction hp with
  | ret => exact hq _
  | newFrom hk ih => exact .newFrom (fun m hm => ih m hm)
  | inplace ht hp2 ih => exact .inplace ht ih
  | branch hk ih => exact .branch (fun b => ih b)

/-- Main heap lemma: a frame-safe program can only write to objects it
allocated itself, so every object existing before it ran — in
particular the caller's argument frame — is bit-for-bit unchanged
afterwards. -/
theorem exec_preserves_prior [Inhabited α] {n : ℕ} {p : Prog α}
    (hs : FrameSafe n p) :
    ∀ (h : List α), n ≤ h.length → ∀ i, i < n →
      ((p.exec h).1).getD i default = h.getD i default := by
  induction hs with
  | ret => intro h hn i hi; rfl
  | newFrom hk ih =>
    rename_i nn s f k
    intro h hn i hi
    have hstep : ((Prog.newFrom s f k).exec h) =
        (k h.length).exec (h ++ [f (h.getD s default)]) := rfl
    rw [hstep, ih h.length hn (h ++ [f (h.getD s default)]) (by simp; omega) i hi]
    exact List.getD_append _ _ _ _ (lt_of_lt_of_le hi hn)
  | inplace ht hp2 ih =>
    rename_i nn t f p2
    intro h hn i hi
    have hstep : ((Prog.inplace t f p2).exec h) =
        p2.exec (h.set t (f (h.getD t default))) := rfl
    rw [hstep, ih (h.set t (f (h.getD t default))) (by simp [hn]) i hi]
    exact getD_set_ne _ _ _ _ (by omega)
  | branch hk ih =>
    rename_i nn s c k
    intro h hn i hi
    exact ih (c (h.getD s default)) h hn i hi

/-- Runs of in-place writes on a self-allocated object are frame-safe. -/
theorem frameSafe_inplaceSeq {n t : ℕ} (ht : n ≤ t) (fs : List (α → α))
    {p : Prog α} (hp : FrameSafe n p) : FrameSafe n (inplaceSeq t fs p) := by
  induction fs with
  | nil => exact hp
  | cons f fs ih =>
    show FrameSafe n (.inplace t f (inplaceSeq t fs p))
    exact .inplace ht ih

/-- The weekly-aggregation program never writes the caller's frame. -/
theorem frameSafe_buildWeekly {n : ℕ} (maskFilter copyFn setQtyCol groupSum : α → α)
    (df : ℕ) : FrameSafe n (buildWeeklyProg maskFilter copyFn setQtyCol groupSum df) :=
  .newFrom (fun _ _ => .newFrom (fun _ h2 => .inplace h2
    (.newFrom (fun _ _ => .ret))))

/-- The feature-builder program never writes the caller's frame. -/
theorem frameSafe_createFeatures {n : ℕ} (sortFn copyFn : α → α)
    (colOps : List (α → α)) (ts : ℕ) :
    FrameSafe n (createFeaturesProg sortFn copyFn colOps ts) :=
  .newFrom (fun _ _ => .newFrom (fun _ h2 => frameSafe_inplaceSeq h2 colOps .ret))

/-- The categorical-encoding program never writes the caller's frame. -/
theorem frameSafe_encode {n : ℕ} (copyFn : α → α) (encOps : List (α → α)) (df : ℕ) :
    FrameSafe n (encodeProg copyFn encOps df) :=
  .newFrom (fun _ h1 => frameSafe_inplaceSeq h1 encOps .ret)

/-- The recursive-forecast loop never writes a pre-existing frame. -/
theorem frameSafe_recLoop {n : ℕ} (sortFn featCopyFn : α → α)
    (colOps : List (α → α)) (encCopyFn : α → α) (encOps : List (α → α))
    (predictOk : α → Bool) (concatNext : α → α) (df : ℕ) (fuel : ℕ) :
    FrameSafe n (recForecastLoop sortFn featCopyFn colOps encCopyFn encOps
      predictOk concatNext df fuel) := by
  induction fuel generalizing df with
  | zero => exact .ret
  | succ k ih =>
    refine frameSafe_bind (frameSafe_createFeatures _ _ _ _) (fun d1 => ?_)
    refine frameSafe_bind (frameSafe_encode _ _ _) (fun d2 => ?_)
    refine .branch (fun b => ?_)
    cases b
    · exact .ret
    · exact .newFrom (fun d3 _ => ih d3)

/-- The recursive-forecast program never writes the caller's frame. -/
theorem frameSafe_recForecast {n : ℕ} (copyFn setYCol sortFn featCopyFn : α → α)
    (colOps : List (α → α)) (encCopyFn : α → α) (encOps : List (α → α))
    (predictOk : α → Bool) (concatNext : α → α) (product_df horizon : ℕ) :
    FrameSafe n (recForecastProg copyFn setYCol sortFn featCopyFn colOps
      encCopyFn encOps predictOk concatNext product_df horizon) :=
  .newFrom (fun _ hdf => .inplace hdf (frameSafe_recLoop _ _ _ _ _ _ _ _ _))

/-- C10: each of `build_weekly_timeseries`, `create_xgboost_features`,
`encode_categorical_features` (as called by `train_xgboost_model`) and
`xgboost_recursive_forecast` copies before every in-place column
write, so running any of them over a heap of live frames leaves every
pre-existing frame — in particular the caller's input table, and the
shared featured table read by all per-group recursive forecasts —
unchanged, whatever the column arithmetic, the prediction outcomes and
the horizon are. -/
theorem pipeline_stages_do_not_mutate_input {α : Type} [Inhabited α]
    (maskFilter copyFn setQtyCol groupSum sortFn featCopyFn encCopyFn setYCol
      concatNext : α → α) (colOps encOps : List (α → α)) (predictOk : α → Bool)
    (heap : List α) (src : ℕ) (horizon : ℕ) (i : ℕ) (hi : i < heap.length) :
    (((buildWeeklyProg maskFilter copyFn setQtyCol groupSum src).exec heap).1).getD
        i default = heap.getD i default ∧
      (((createFeaturesProg sortFn featCopyFn colOps src).exec heap).1).getD
        i default = heap.getD i default ∧
      (((encodeProg encCopyFn encOps src).exec heap).1).getD
        i default = heap.getD i default ∧
      (((recForecastProg copyFn setYCol sortFn featCopyFn colOps encCopyFn encOps
          predictOk concatNext src horizon).exec heap).1).getD
        i default = heap.getD i default :=
  ⟨exec_preserves_prior (frameSafe_buildWeekly _ _ _ _ _) heap le_rfl i hi,
   exec_preserves_prior (frameSafe_createFeatures _ _ _ _) heap le_rfl i hi,
   exec_preserves_prior (frameSafe_encode _ _ _) heap le_rfl i hi,
   exec_preserves_prior (frameSafe_recForecast _ _ _ _ _ _ _ _ _ _ _) heap le_rfl i hi⟩

/-- Witness for `pipeline_stages_do_not_mutate_input` on a one-frame
heap of integer frames and identity column operations. -/
theorem pipeline_stages_do_not_mutate_input_witness :
    (0 : ℕ) < ([7] : List ℤ).length ∧
      ((((buildWeeklyProg (α := ℤ) id id id id 0).exec [7]).1).getD 0 default =
          ([7] : List ℤ).getD 0 default ∧
        (((createFeaturesProg (α := ℤ) id id [id] 0).exec [7]).1).getD 0 default =
          ([7] : List ℤ).getD 0 default ∧
        (((encodeProg (α := ℤ) id [id] 0).exec [7]).1).getD 0 default =
          ([7] : List ℤ).getD 0 default ∧
        (((recForecastProg (α := ℤ) id id id id [id] id [id] (fun _ => true) id
            0 2).exec [7]).1).getD 0 default = ([7] : List ℤ).getD 0 default) :=
  ⟨by decide,
    pipeline_stages_do_not_mutate_input id id id id id id id id id [id] [id]
      (fun _ => true) [7] 0 2 0 (by decide)⟩

/-- Every heuristic branch emits exactly the horizon count of values. -/
theorem naive_forecast_length (series : List ℚ) (horizon : ℕ) :
    (naive_forecast series horizon).length = horizon := by
  unfold naive_forecast
  cases series.getLast? <;> simp

/-- The rolling-mean heuristic emits exactly the horizon count. -/
theorem rolling_mean_forecast_length (series : List ℚ) (horizon window : ℕ) :
    (rolling_mean_forecast series horizon window).length = horizon := by
  unfold rolling_mean_forecast
  simp

/-- The recursive-forecast loop always emits exactly the horizon count
of values, independently of where (or whether) prediction failed. -/
theorem xgbRecAux_length (F : NumFns) (predict : Row → Option ℚ) :
    ∀ (n : ℕ) (df : List Row), (xgbRecAux F predict df n).length = n := by
  intro n
  induction n with
  | zero => intro df; rfl
  | succ n ih =>
    intro df
    unfold xgbRecAux
    cases hstep : xgbStep F predict df with
    | none => simp
    | some v => simp [ih v.2]

/-- The function `xgboost_recursive_forecast` always returns exactly
`horizon` values. -/
theorem xgboost_recursive_forecast_length (F : NumFns) (predict : Row → Option ℚ)
    (product_df : List Row) (horizon : ℕ) :
    (xgboost_recursive_forecast F predict product_df horizon).length = horizon :=
  xgbRecAux_length F predict horizon _

/-- The adaptive heuristic emits exactly the horizon count. -/
theorem adaptive_heuristic_length (series : List ℚ) :
    ((adaptive_heuristic series).2).length = FORECAST_HORIZON := by
  unfold adaptive_heuristic
  split_ifs with h1 h2
  · simp
  · simp [naive_forecast_length]
  · dsimp only
    split_ifs with h3 <;>
      simp [naive_forecast_length, rolling_mean_forecast_length]

/-- The selected value list always has exactly the horizon count. -/
theorem fspMethodValues_length (F : NumFns) (predict : Row → Option ℚ)
    (today : Date) (product_df : List Row) :
    ((fspMethodValues F predict today product_df).2).length = FORECAST_HORIZON := by
  unfold fspMethodValues
  split_ifs <;>
    simp [xgboost_recursive_forecast_length, adaptive_heuristic_length]

/-- Pointwise properties transfer to members of a `zipWith`. -/
theorem zipWith_mem_prop {α β γ : Type} {f : α → β → γ} {P : γ → Prop} :
    ∀ (l1 : List α) (l2 : List β), (∀ a ∈ l1, ∀ b ∈ l2, P (f a b)) →
      ∀ c ∈ List.zipWith f l1 l2, P c := by
  intro l1
  induction l1 with
  | nil => intro l2 hp c hc; simp at hc
  | cons a l1 ih =>
    intro l2 hp c hc
    cases l2 with
    | nil => simp at hc
    | cons b l2 =>
      simp only [List.zipWith_cons_cons, List.mem_cons] at hc
      rcases hc with rfl | hc
      · exact hp a (by simp) b (by simp)
      · exact ih l2 (fun x hx y hy => hp x (by simp [hx]) y (by simp [hy])) c hc

/-- Mapping the left projection over a `zipWith` recovers the left
list when the right list is at least as long. -/
theorem map_zipWith_eq_left {α β γ : Type} {f : α → β → γ} {g : γ → α}
    (hg : ∀ a b, g (f a b) = a) :
    ∀ (l1 : List α) (l2 : List β), l1.length ≤ l2.length →
      (List.zipWith f l1 l2).map g = l1 := by
  intro l1
  induction l1 with
  | nil => intro l2 h; simp
  | cons a l1 ih =>
    intro l2 h
    cases l2 with
    | nil => simp at h
    | cons b l2 =>
      simp only [List.zipWith_cons_cons, List.map_cons, hg]
      rw [ih l2 (by simpa using h)]

/-- Instrumented and plain recursive forecasts line up: when the loop
fails at (1-based) step `s`, the output is the completed predictions
followed by zeros padding the list to the full horizon. -/
theorem xgbRecAux_split_on_fail (F : NumFns) (predict : Row → Option ℚ) :
    ∀ (n : ℕ) (df : List Row) (s : ℕ),
      xgbRecFailStep F predict df n = some s →
      1 ≤ s ∧ s ≤ n ∧
        xgbRecAux F predict df n =
          xgbRecPreds F predict df n ++ List.replicate (n - s + 1) 0 ∧
        (xgbRecPreds F predict df n).length = s - 1 := by
  intro n
  induction n with
  | zero => intro df s h; exact absurd h (by simp [xgbRecFailStep])
  | succ n ih =>
    intro df s h
    unfold xgbRecFailStep at h
    cases hstep : xgbStep F predict df with
    | none =>
      rw [hstep] at h
      obtain rfl : (1 : ℕ) = s := by simpa using h
      refine ⟨le_refl 1, by omega, ?_, ?_⟩
      · unfold xgbRecAux xgbRecPreds
        rw [hstep]
        simp
      · unfold xgbRecPreds
        rw [hstep]
        rfl
    | some v =>
      rw [hstep] at h
      obtain ⟨s1, hs1, rfl⟩ := Option.map_eq_some'.1 h
      obtain ⟨h1, h2, h3, h4⟩ := ih v.2 s1 hs1
      refine ⟨by omega, by omega, ?_, ?_⟩
      · unfold xgbRecAux xgbRecPreds
        rw [hstep]
        have hn : n + 1 - (s1 + 1) + 1 = n - s1 + 1 := by omega
        simp only [hn, h3, List.cons_append]
      · unfold xgbRecPreds
        rw [hstep]
        simp only [List.length_cons, h4]
        omega

/-- On a non-empty group slice, `forecast_single_product` is the
zip of the W-SUN future dates with the selected values. -/
theorem forecast_single_product_eq (F : NumFns) (predict : Row → Option ℚ)
    (today : Date) (ts : List Row) (pn pu : ℤ) (st : Option ℤ)
    (hne : productSlice ts pn pu st ≠ []) :
    forecast_single_product F predict today ts pn pu st =
      List.zipWith (fun d v =>
        { date := d, forecast_qty := v, year := d.year, month := d.month,
          week_month := week_month_from_date d, product_name := pn,
          product_uom := pu, sales_type := st,
          forecast_method :=
            (fspMethodValues F predict today (productSlice ts pn pu st)).1 })
        (date_range_W_SUN today FORECAST_HORIZON)
        ((fspMethodValues F predict today (productSlice ts pn pu st)).2) := by
  unfold forecast_single_product
  dsimp only
  have hfalse : (productSlice ts pn pu st).isEmpty = false := by
    cases hsl : productSlice ts pn pu st
    · exact absurd hsl hne
    · rfl
  rw [if_neg (by simp [hfalse])]

/-- C3: when prediction inside `xgboost_recursive_forecast` fails at
step `s` of horizon `h` (1 ≤ s ≤ h), the function still returns —
without raising — a list of exactly `h` values: the `s - 1`
predictions already computed followed by `h - s + 1` zeros; and the
calling selector, whenever it takes the model branch (active group
with at least `MIN_XGBOOST_ROWS` fully lagged rows), still tags every
emitted row XGBOOST_RECURSIVE, for this — arbitrary, possibly
failing — predictor, rather than falling back to a heuristic. -/
theorem recursive_forecast_failure_fill (F : NumFns) (predict : Row → Option ℚ)
    (product_df : List Row) (h s : ℕ)
    (hfail : xgboost_recursive_failstep F predict product_df h = some s) :
    1 ≤ s ∧ s ≤ h ∧
      (xgboost_recursive_forecast F predict product_df h).length = h ∧
      xgboost_recursive_forecast F predict product_df h =
        xgboost_recursive_preds F predict product_df h ++
          List.replicate (h - s + 1) 0 ∧
      (xgboost_recursive_preds F predict product_df h).length = s - 1 ∧
      (∀ (today : Date) (ts : List Row) (pn pu : ℤ) (st : Option ℤ),
        productSlice ts pn pu st ≠ [] →
        gapIsInactive today (productSlice ts pn pu st) = false →
        MIN_XGBOOST_ROWS ≤ fullyLaggedCount (productSlice ts pn pu st) →
        ∀ fr ∈ forecast_single_product F predict today ts pn pu st,
          fr.forecast_method = Method.XGBOOST_RECURSIVE) := by
  obtain ⟨h1, h2, h3, h4⟩ := xgbRecAux_split_on_fail F predict h _ s hfail
  refine ⟨h1, h2, xgboost_recursive_forecast_length F predict product_df h,
    h3, h4, ?_⟩
  intro today ts pn pu st hne hgap hcount fr hfr
  rw [forecast_single_product_eq F predict today ts pn pu st hne] at hfr
  have hmv : (fspMethodValues F predict today (productSlice ts pn pu st)).1 =
      Method.XGBOOST_RECURSIVE := by
    unfold fspMethodValues
    rw [if_neg (by simp [hgap]), if_pos hcount]
  exact zipWith_mem_prop
    (P := fun c => c.forecast_method = Method.XGBOOST_RECURSIVE) _ _
    (fun a _ b _ => hmv) fr hfr

/-- Witness for `recursive_forecast_failure_fill`: with the predictor
`c3Predict` the run over `c3Df` fails at step 2 of horizon 4, so the
output is one prediction followed by three zeros. -/
theorem recursive_forecast_failure_fill_witness :
    xgboost_recursive_failstep idNumFns c3Predict c3Df 4 = some 2 ∧
      (1 ≤ 2 ∧ 2 ≤ 4 ∧
        (xgboost_recursive_forecast idNumFns c3Predict c3Df 4).length = 4 ∧
        xgboost_recursive_forecast idNumFns c3Predict c3Df 4 =
          xgboost_recursive_preds idNumFns c3Predict c3Df 4 ++
            List.replicate (4 - 2 + 1) 0 ∧
        (xgboost_recursive_preds idNumFns c3Predict c3Df 4).length = 2 - 1 ∧
        (∀ (today : Date) (ts : List Row) (pn pu : ℤ) (st : Option ℤ),
          productSlice ts pn pu st ≠ [] →
          gapIsInactive today (productSlice ts pn pu st) = false →
          MIN_XGBOOST_ROWS ≤ fullyLaggedCount (productSlice ts pn pu st) →
          ∀ fr ∈ forecast_single_product idNumFns c3Predict today ts pn pu st,
            fr.forecast_method = Method.XGBOOST_RECURSIVE)) :=
  ⟨by decide, recursive_forecast_failure_fill idNumFns c3Predict c3Df 4 2 (by decide)⟩

/-- C4: for every non-empty product group whose gap — weeks between
"now" and the last date with positive `qty_for_forecast`, infinite
when none exists — is at least `INACTIVE_GAP_WEEKS` (the test
`gapIsInactive`), `forecast_single_product` emits exactly
`FORECAST_HORIZON` zero-valued rows tagged ZERO_INACTIVE, whatever the
rest of the history is (in particular the check precedes the model
branch even when enough fully-lagged rows exist, since the
quantification over `ts` is unrestricted). -/
theorem inactive_group_zero_forecast (F : NumFns) (predict : Row → Option ℚ)
    (today : Date) (ts : List Row) (pn pu : ℤ) (st : Option ℤ)
    (hne : productSlice ts pn pu st ≠ [])
    (hgap : gapIsInactive today (productSlice ts pn pu st) = true) :
    (forecast_single_product F predict today ts pn pu st).length =
        FORECAST_HORIZON ∧
      ∀ fr ∈ forecast_single_product F predict today ts pn pu st,
        fr.forecast_qty = 0 ∧ fr.forecast_method = Method.ZERO_INACTIVE := by
  have heq := forecast_single_product_eq F predict today ts pn pu st hne
  have hmv1 : (fspMethodValues F predict today (productSlice ts pn pu st)).1 =
      Method.ZERO_INACTIVE := by
    unfold fspMethodValues
    rw [if_pos hgap]
  have hmv2 : (fspMethodValues F predict today (productSlice ts pn pu st)).2 =
      List.replicate FORECAST_HORIZON 0 := by
    unfold fspMethodValues
    rw [if_pos hgap]
  constructor
  · rw [heq, List.length_zipWith, hmv2, List.length_replicate]
    have hd : (date_range_W_SUN today FORECAST_HORIZON).length = FORECAST_HORIZON := rfl
    rw [hd, min_self]
  · intro fr hfr
    rw [heq] at hfr
    refine zipWith_mem_prop
      (P := fun c => c.forecast_qty = 0 ∧ c.forecast_method = Method.ZERO_INACTIVE)
      _ _ ?_ fr hfr
    intro a _ b hb
    refine ⟨?_, hmv1⟩
    show b = 0
    rw [hmv2] at hb
    exact List.eq_of_mem_replicate hb

/-- Witness for `inactive_group_zero_forecast`: last positive sale on
2024-01-01, "now" 2024-02-12 — a 6-week gap with the 4-week default. -/
theorem inactive_group_zero_forecast_witness :
    productSlice c4Ts 1 1 (some 1) ≠ [] ∧
      gapIsInactive ⟨2024, 2, 12⟩ (productSlice c4Ts 1 1 (some 1)) = true ∧
      ((forecast_single_product idNumFns (fun _ => none) ⟨2024, 2, 12⟩ c4Ts 1 1
            (some 1)).length = FORECAST_HORIZON ∧
        ∀ fr ∈ forecast_single_product idNumFns (fun _ => none) ⟨2024, 2, 12⟩
            c4Ts 1 1 (some 1),
          fr.forecast_qty = 0 ∧ fr.forecast_method = Method.ZERO_INACTIVE) :=
  ⟨by decide, by decide,
    inactive_group_zero_forecast idNumFns (fun _ => none) ⟨2024, 2, 12⟩ c4Ts 1 1
      (some 1) (by decide) (by decide)⟩

/-- C5: on the heuristic branch (non-empty group, not inactive, fewer
than `MIN_XGBOOST_ROWS` fully lagged rows) the emitted method is the
adaptive selection, which picks HEURISTIC_ZERO for an empty or
zero-sum series, HEURISTIC_NAIVE for a single observation, and
otherwise HEURISTIC_NAIVE exactly when the series is stable —
`cv < 0.3` and `|trend| < 0.1·mean` — falling back to
HEURISTIC_ROLLING_MEAN otherwise; `cv = std/mean` is infinite for
`mean ≤ 0`, and for `mean > 0` the comparison `cv < 3/10` is exactly
the variance comparison used by `adaptive_heuristic` (third
conjunct); finally [10,10,10,10,10] selects naive and [1,50,2,60,3]
selects rolling mean. -/
theorem adaptive_heuristic_selection (F : NumFns) (predict : Row → Option ℚ)
    (today : Date) (ts : List Row) (pn pu : ℤ) (st : Option ℤ)
    (hne : productSlice ts pn pu st ≠ [])
    (hgap : gapIsInactive today (productSlice ts pn pu st) = false)
    (hcount : fullyLaggedCount (productSlice ts pn pu st) < MIN_XGBOOST_ROWS) :
    (∀ fr ∈ forecast_single_product F predict today ts pn pu st,
        fr.forecast_method =
          (adaptive_heuristic
            ((productSlice ts pn pu st).map (fun r => r.qty_for_forecast))).1) ∧
      (∀ series : List ℚ,
        ((series.length = 0 ∨ qsum series = 0) →
          (adaptive_heuristic series).1 = Method.HEURISTIC_ZERO) ∧
        (series.length = 1 → qsum series ≠ 0 →
          (adaptive_heuristic series).1 = Method.HEURISTIC_NAIVE) ∧
        (2 ≤ series.length → qsum series ≠ 0 →
          ((adaptive_heuristic series).1 = Method.HEURISTIC_NAIVE ↔
            (0 < qmean series ∧
              sampleVar series < 3 / 10 * qmean series * (3 / 10 * qmean series) ∧
              |qmean (diffs series)| < qmean series * (1 / 10)))) ∧
        (2 ≤ series.length → qsum series ≠ 0 →
          ((adaptive_heuristic series).1 = Method.HEURISTIC_NAIVE ∨
            (adaptive_heuristic series).1 = Method.HEURISTIC_ROLLING_MEAN))) ∧
      (∀ series : List ℚ, 0 < qmean series →
        (Real.sqrt ((sampleVar series : ℚ) : ℝ) / ((qmean series : ℚ) : ℝ) <
            3 / 10 ↔
          sampleVar series < 3 / 10 * qmean series * (3 / 10 * qmean series))) ∧
      (adaptive_heuristic [10, 10, 10, 10, 10]).1 = Method.HEURISTIC_NAIVE ∧
      (adaptive_heuristic [1, 50, 2, 60, 3]).1 = Method.HEURISTIC_ROLLING_MEAN := by
  refine ⟨?_, ?_, ?_, by decide, by decide⟩
  · intro fr hfr
    rw [forecast_single_product_eq F predict today ts pn pu st hne] at hfr
    have hmv : (fspMethodValues F predict today (productSlice ts pn pu st)).1 =
        (adaptive_heuristic
          ((productSlice ts pn pu st).map (fun r => r.qty_for_forecast))).1 := by
      unfold fspMethodValues
      rw [if_neg (by simp [hgap]), if_neg (by omega)]
    exact zipWith_mem_prop
      (P := fun c => c.forecast_method =
        (adaptive_heuristic
          ((productSlice ts pn pu st).map (fun r => r.qty_for_forecast))).1)
      _ _ (fun a _ b _ => hmv) fr hfr
  · intro series
    refine ⟨?_, ?_, ?_, ?_⟩
    · intro hz
      unfold adaptive_heuristic
      rw [if_pos hz]
    · intro hlen hsum
      have hz : ¬(series.length = 0 ∨ qsum series = 0) := by
        push_neg
        exact ⟨by omega, hsum⟩
      unfold adaptive_heuristic
      rw [if_neg hz, if_pos hlen]
    · intro hlen hsum
      have hz : ¬(series.length = 0 ∨ qsum series = 0) := by
        push_neg
        exact ⟨by omega, hsum⟩
      have hone : series.length ≠ 1 := by omega
      unfold adaptive_heuristic
      rw [if_neg hz, if_neg hone]
      dsimp only
      by_cases hstable : (0 < qmean series ∧
          sampleVar series < 3 / 10 * qmean series * (3 / 10 * qmean series) ∧
          |qmean (diffs series)| < qmean series * (1 / 10))
      · rw [if_pos hstable]
        exact ⟨fun _ => hstable, fun _ => rfl⟩
      · rw [if_neg hstable]
        exact ⟨fun hcontra => absurd hcontra (by simp),
          fun hcond => absurd hcond hstable⟩
    · intro hlen hsum
      have hz : ¬(series.length = 0 ∨ qsum series = 0) := by
        push_neg
        exact ⟨by omega, hsum⟩
      have hone : series.length ≠ 1 := by omega
      unfold adaptive_heuristic
      rw [if_neg hz, if_neg hone]
      dsimp only
      by_cases hstable : (0 < qmean series ∧
          sampleVar series < 3 / 10 * qmean series * (3 / 10 * qmean series) ∧
          |qmean (diffs series)| < qmean series * (1 / 10))
      · rw [if_pos hstable]
        exact Or.inl rfl
      · rw [if_neg hstable]
        exact Or.inr rfl
  · intro series hm
    have hmR : (0 : ℝ) < ((qmean series : ℚ) : ℝ) := by exact_mod_cast hm
    rw [div_lt_iff₀ hmR, Real.sqrt_lt' (mul_pos (by norm_num) hmR)]
    rw [show ((3 : ℝ) / 10 * ((qmean series : ℚ) : ℝ)) ^ 2 =
        (((3 / 10 * qmean series * (3 / 10 * qmean series)) : ℚ) : ℝ) from by
      push_cast
      ring]
    exact ⟨fun hh => by exact_mod_cast hh, fun hh => by exact_mod_cast hh⟩

/-- Witness for `adaptive_heuristic_selection`: five weeks of constant
demand 10, active, far fewer than 10 fully lagged rows. -/
theorem adaptive_heuristic_selection_witness :
    productSlice c5Ts 1 1 (some 1) ≠ [] ∧
      gapIsInactive ⟨2024, 1, 31⟩ (productSlice c5Ts 1 1 (some 1)) = false ∧
      fullyLaggedCount (productSlice c5Ts 1 1 (some 1)) < MIN_XGBOOST_ROWS ∧
      ∀ fr ∈ forecast_single_product idNumFns (fun _ => none) ⟨2024, 1, 31⟩
          c5Ts 1 1 (some 1),
        fr.forecast_method =
          (adaptive_heuristic
            ((productSlice c5Ts 1 1 (some 1)).map (fun r => r.qty_for_forecast))).1 :=
  ⟨by decide, by decide, by decide,
    (adaptive_heuristic_selection idNumFns (fun _ => none) ⟨2024, 1, 31⟩ c5Ts 1 1
      (some 1) (by decide) (by decide) (by decide)).1⟩

/-- C8 (amended): whenever `forecast_single_product` emits a forecast,
its `FORECAST_HORIZON` output dates are consecutive weekly dates 7
days apart starting at the first Sunday on or after "now" ("now"
itself when it is a Sunday) — the anchor of `pd.date_range(...,
freq="W-SUN")` — not at a business-week boundary (day 1, 8, 15 or 22;
see `forecast_dates_not_week_boundaries`); and each emitted row
carries that date's derived year and month together with the derived
business-week number `min(4, (day - 1) // 7 + 1)`. -/
theorem forecast_dates_weekly_sundays (F : NumFns) (predict : Row → Option ℚ)
    (today : Date) (ts : List Row) (pn pu : ℤ) (st : Option ℤ)
    (hne : productSlice ts pn pu st ≠ []) :
    (forecast_single_product F predict today ts pn pu st).map (fun fr => fr.date) =
        date_range_W_SUN today FORECAST_HORIZON ∧
      date_range_W_SUN today FORECAST_HORIZON =
        (List.range FORECAST_HORIZON).map
          (fun i : ℕ => Date.ofOrd (sundayOnOrAfter today.ord + 7 * (i : ℤ))) ∧
      dayOfWeek (sundayOnOrAfter today.ord) = 0 ∧
      today.ord ≤ sundayOnOrAfter today.ord ∧
      (∀ z : ℤ, today.ord ≤ z → dayOfWeek z = 0 →
        sundayOnOrAfter today.ord ≤ z) ∧
      (∀ fr ∈ forecast_single_product F predict today ts pn pu st,
        fr.year = fr.date.year ∧ fr.month = fr.date.month ∧
          fr.week_month = week_month_from_date fr.date) := by
  refine ⟨?_, rfl, ?_, ?_, ?_, ?_⟩
  · rw [forecast_single_product_eq F predict today ts pn pu st hne]
    exact map_zipWith_eq_left (fun a b => rfl) _ _
      (le_of_eq (by rw [fspMethodValues_length]; rfl))
  · unfold sundayOnOrAfter
    unfold dayOfWeek
    omega
  · unfold sundayOnOrAfter
    unfold dayOfWeek
    omega
  · intro z hz hdow
    unfold dayOfWeek at hdow
    unfold sundayOnOrAfter
    unfold dayOfWeek
    omega
  · intro fr hfr
    rw [forecast_single_product_eq F predict today ts pn pu st hne] at hfr
    exact zipWith_mem_prop
      (P := fun c => c.year = c.date.year ∧ c.month = c.date.month ∧
        c.week_month = week_month_from_date c.date)
      _ _ (fun a _ b _ => ⟨rfl, rfl, rfl⟩) fr hfr

/-- Witness for `forecast_dates_weekly_sundays`. -/
theorem forecast_dates_weekly_sundays_witness :
    productSlice c8Ts 1 1 (some 1) ≠ [] ∧
      (forecast_single_product idNumFns (fun _ => none) ⟨2024, 1, 3⟩ c8Ts 1 1
            (some 1)).map (fun fr => fr.date) =
        date_range_W_SUN ⟨2024, 1, 3⟩ FORECAST_HORIZON :=
  ⟨by decide,
    (forecast_dates_weekly_sundays idNumFns (fun _ => none) ⟨2024, 1, 3⟩ c8Ts 1 1
      (some 1) (by decide)).1⟩

/-- Counterexample to C8 as stated: with "now" = Wednesday 2024-01-03
the emitted dates are the Sundays 2024-01-07 and 2024-01-14, whose
days of month (7 and 14) are not business-week boundaries — the claim
that output dates start at a day-of-month in {1, 8, 15, 22} is false. -/
theorem forecast_dates_not_week_boundaries :
    (forecast_single_product idNumFns (fun _ => none) ⟨2024, 1, 3⟩ c8Ts 1 1
          (some 1)).map (fun fr => fr.date) = [⟨2024, 1, 7⟩, ⟨2024, 1, 14⟩] ∧
      ¬((7 : ℤ) ∈ ([1, 8, 15, 22] : List ℤ)) ∧
      ¬((14 : ℤ) ∈ ([1, 8, 15, 22] : List ℤ)) := by
  decide

/-- The per-product loop collects exactly the non-empty successful
frames, in order. -/
theorem forecast_loop_ok (fspCall : ℤ × ℤ × ℤ → Except String (List ForecastRow)) :
    ∀ ks : List (ℤ × ℤ × ℤ),
      (forecast_loop fspCall ks).1 = ks.filterMap (fun k =>
        match fspCall k with
        | .error _ => none
        | .ok fdf => if fdf.isEmpty then none else some fdf) := by
  intro ks
  induction ks with
  | nil => rfl
  | cons k ks ih =>
    unfold forecast_loop
    dsimp only
    rw [List.filterMap_cons]
    cases hk : fspCall k with
    | error e =>
      dsimp only
      exact ih
    | ok fdf =>
      dsimp only
      by_cases hfe : fdf.isEmpty
      · rw [if_pos hfe, if_pos hfe]
        exact ih
      · rw [if_neg hfe, if_neg hfe]
        dsimp only
        rw [ih]

/-- The per-product loop records exactly the raising calls (reason
`"Error: ..."`) and the empty results (reason
`"Empty forecast returned"`), in order. -/
theorem forecast_loop_failed
    (fspCall : ℤ × ℤ × ℤ → Except String (List ForecastRow)) :
    ∀ ks : List (ℤ × ℤ × ℤ),
      (forecast_loop fspCall ks).2 = ks.filterMap (fun k =>
        match fspCall k with
        | .error e => some ⟨k.1, k.2.1, k.2.2, "Error: " ++ e⟩
        | .ok fdf => if fdf.isEmpty then
            some ⟨k.1, k.2.1, k.2.2, "Empty forecast returned"⟩ else none) := by
  intro ks
  induction ks with
  | nil => rfl
  | cons k ks ih =>
    unfold forecast_loop
    dsimp only
    rw [List.filterMap_cons]
    cases hk : fspCall k with
    | error e =>
      dsimp only
      rw [ih]
    | ok fdf =>
      dsimp only
      by_cases hfe : fdf.isEmpty
      · rw [if_pos hfe, if_pos hfe]
        dsimp only
        rw [ih]
      · rw [if_neg hfe, if_neg hfe]
        exact ih

/-- Folding the first-occurrence deduplication step over any list
keeps a non-empty accumulator non-empty. -/
theorem foldl_dedup_ne_nil [DecidableEq α] :
    ∀ (xs : List α) (acc : List α), acc ≠ [] →
      xs.foldl (fun acc x => if x ∈ acc then acc else acc ++ [x]) acc ≠ [] := by
  intro xs
  induction xs with
  | nil => intro acc h; exact h
  | cons x xs ih =>
    intro acc h
    rw [List.foldl_cons]
    by_cases hx : x ∈ acc
    · rw [if_pos hx]
      exact ih acc h
    · rw [if_neg hx]
      exact ih _ (by simp)

/-- First-occurrence deduplication of a non-empty list is non-empty. -/
theorem dedupFirst_ne_nil [DecidableEq α] (l : List α) (h : l ≠ []) :
    dedupFirst l ≠ [] := by
  cases l with
  | nil => exact absurd rfl h
  | cons x xs =>
    unfold dedupFirst
    rw [List.foldl_cons]
    have hx : (if x ∈ ([] : List α) then ([] : List α) else [] ++ [x]) = [x] := by
      simp
    rw [hx]
    exact foldl_dedup_ne_nil xs [x] (by simp)

/-- C9: once the global model has trained, `run_pipeline` always
returns normally: there is at least one product group; every group
whose call raised or returned an empty frame is in the failed list
with its reason, in loop order; the successful groups' frames are
concatenated in order into the result; and the result is empty
exactly when every group failed. -/
theorem run_pipeline_collects_failures (F : NumFns)
    (fspRaw : List Row → ℤ × ℤ × ℤ → Except String (List ForecastRow))
    (ts : List Row)
    (htrain : train_xgboost_model (create_xgboost_features F ts) = .ok ()) :
    ∃ result failed,
      run_pipeline F fspRaw ts = .ok (result, failed) ∧
        distinctProducts (create_xgboost_features F ts) ≠ [] ∧
        failed = (distinctProducts (create_xgboost_features F ts)).filterMap
          (fun k =>
            match fspRaw (create_xgboost_features F ts) k with
            | .error e => some ⟨k.1, k.2.1, k.2.2, "Error: " ++ e⟩
            | .ok fdf => if fdf.isEmpty then
                some ⟨k.1, k.2.1, k.2.2, "Empty forecast returned"⟩ else none) ∧
        result = ((distinctProducts (create_xgboost_features F ts)).filterMap
          (fun k =>
            match fspRaw (create_xgboost_features F ts) k with
            | .error _ => none
            | .ok fdf => if fdf.isEmpty then none else some fdf)).flatten ∧
        (result = [] ↔
          ∀ k ∈ distinctProducts (create_xgboost_features F ts),
            match fspRaw (create_xgboost_features F ts) k with
            | .error _ => True
            | .ok fdf => fdf = []) := by
  refine ⟨(forecast_loop (fspRaw (create_xgboost_features F ts))
      (distinctProducts (create_xgboost_features F ts))).1.flatten,
    (forecast_loop (fspRaw (create_xgboost_features F ts))
      (distinctProducts (create_xgboost_features F ts))).2, ?_, ?_, ?_, ?_, ?_⟩
  · unfold run_pipeline
    dsimp only
    rw [htrain]
    dsimp only
    by_cases hem : (forecast_loop (fspRaw (create_xgboost_features F ts))
        (distinctProducts (create_xgboost_features F ts))).1.isEmpty
    · rw [if_pos hem]
      have hloop : (forecast_loop (fspRaw (create_xgboost_features F ts))
          (distinctProducts (create_xgboost_features F ts))).1 = [] := by
        simpa [List.isEmpty_iff] using hem
      rw [hloop]
      rfl
    · rw [if_neg hem]
  · have husable : ¬(trainUsableRows (create_xgboost_features F ts)).isEmpty = true := by
      intro hcontra
      unfold train_xgboost_model at htrain
      rw [if_pos hcontra] at htrain
      exact absurd htrain (by simp)
    have htsF : create_xgboost_features F ts ≠ [] := by
      intro h0
      apply husable
      rw [h0]
      rfl
    exact dedupFirst_ne_nil _ (by simpa using htsF)
  · exact forecast_loop_failed _ _
  · rw [forecast_loop_ok]
  · rw [forecast_loop_ok]
    constructor
    · intro hres k hk
      cases hkk : fspRaw (create_xgboost_features F ts) k with
      | error e => exact trivial
      | ok fdf =>
        dsimp only
        by_cases hfe : fdf = []
        · exact hfe
        · refine List.flatten_eq_nil_iff.1 hres fdf (List.mem_filterMap.2 ⟨k, hk, ?_⟩)
          rw [hkk]
          dsimp only
          rw [if_neg (by simpa [List.isEmpty_iff] using hfe)]
    · intro hall
      have hnil : (distinctProducts (create_xgboost_features F ts)).filterMap
          (fun k =>
            match fspRaw (create_xgboost_features F ts) k with
            | .error _ => none
            | .ok fdf => if fdf.isEmpty then none else some fdf) = [] := by
        refine List.filterMap_eq_nil_iff.2 (fun k hk => ?_)
        have hk2 := hall k hk
        cases hkk : fspRaw (create_xgboost_features F ts) k with
        | error e => rfl
        | ok fdf =>
          rw [hkk] at hk2
          dsimp only at hk2 ⊢
          rw [if_pos (by simpa [List.isEmpty_iff] using hk2)]
      rw [hnil]
      rfl

/-- Witness for `run_pipeline_collects_failures`: training succeeds on
the nine-week group and a per-group call that always raises yields an
empty result with the group recorded as failed. -/
theorem run_pipeline_collects_failures_witness :
    train_xgboost_model (create_xgboost_features idNumFns c9Ts) = .ok () ∧
      (∃ result failed,
        run_pipeline idNumFns (fun _ _ => .error "boom") c9Ts =
            .ok (result, failed) ∧
          distinctProducts (create_xgboost_features idNumFns c9Ts) ≠ [] ∧
          failed = (distinctProducts (create_xgboost_features idNumFns c9Ts)).filterMap
            (fun k =>
              match (fun (_ : List Row) (_ : ℤ × ℤ × ℤ) =>
                  (.error "boom" : Except String (List ForecastRow)))
                  (create_xgboost_features idNumFns c9Ts) k with
              | .error e => some ⟨k.1, k.2.1, k.2.2, "Error: " ++ e⟩
              | .ok fdf => if fdf.isEmpty then
                  some ⟨k.1, k.2.1, k.2.2, "Empty forecast returned"⟩ else none) ∧
          result = ((distinctProducts (create_xgboost_features idNumFns c9Ts)).filterMap
            (fun k =>
              match (fun (_ : List Row) (_ : ℤ × ℤ × ℤ) =>
                  (.error "boom" : Except String (List ForecastRow)))
                  (create_xgboost_features idNumFns c9Ts) k with
              | .error _ => none
              | .ok fdf => if fdf.isEmpty then none else some fdf)).flatten ∧
          (result = [] ↔
            ∀ k ∈ distinctProducts (create_xgboost_features idNumFns c9Ts),
              match (fun (_ : List Row) (_ : ℤ × ℤ × ℤ) =>
                  (.error "boom" : Except String (List ForecastRow)))
                  (create_xgboost_features idNumFns c9Ts) k with
              | .error _ => True
              | .ok fdf => fdf = [])) :=
  ⟨by decide,
    run_pipeline_collects_failures idNumFns
      (fun _ _ => .error "boom") c9Ts (by decide)⟩

end Pricepally
